import Mathlib

/-!
Verification of the court-scheduler timezone-conversion and
availability-aggregation core.

Shallow embedding conventions:

* A wall-clock datetime or an absolute instant is a number of minutes
  since 1970-01-01T00:00 (a day is uniformly 1440 minutes; JavaScript's
  `Date` accessors use the same floor-based arithmetic on the epoch
  value).  `Int./` and `Int.%` are Euclidean, which coincides with the
  floor semantics of JavaScript's calendar arithmetic for the positive
  divisors (60, 1440, 7, 24) used here.
* The browser's own timezone is taken to be UTC, so a `Date`'s local
  accessors read its epoch fields directly.  Functions from `date-fns-tz`
  are modelled through an abstract zone database: `zonedTimeToUtc`
  resolves a wall-clock datetime with `ZoneRules.offAtLocal`, and
  `utcToZonedTime` shifts an instant with `ZoneRules.offAtUtc` (both in
  minutes east of UTC).  An unresolvable IANA identifier is a database
  lookup returning `none`; in the source that lookup throws and the
  surrounding `try/catch` handles it, so the embedding returns the same
  fallback values the catch-blocks return.
* The implicit `new Date()` read of the weekly-mode code is passed
  explicitly as `todayNum`, the day number of the reference "today".
* Calendar dates are `(year, month, day)` triples; `daysFromCivil` and
  `civilFromDays` are the standard proleptic-Gregorian conversions that
  JavaScript `Date` implements.  ISO "YYYY-MM-DD" strings are produced
  by `formatYMD` (zero-padded, so lexicographic string comparison agrees
  with chronological order, as JavaScript's default `sort()` relies on).
-/

namespace CourtScheduler

/-- The canonical weekday names, Monday-first (src/src/types/index.ts
`DAYS_OF_WEEK`, and the local `days` arrays of the timezone utilities and
of the availability map). -/
def days : List String :=
  ["Monday", "Tuesday", "Wednesday", "Thursday", "Friday", "Saturday", "Sunday"]

/-- `getDayIndex` from the timezone utilities: `days.indexOf(dayName)`,
`-1` when the name is not one of the seven canonical names.  The
seven-element lookup is unrolled. -/
def getDayIndex (dayName : String) : Int :=
  if dayName = "Monday" then 0
  else if dayName = "Tuesday" then 1
  else if dayName = "Wednesday" then 2
  else if dayName = "Thursday" then 3
  else if dayName = "Friday" then 4
  else if dayName = "Saturday" then 5
  else if dayName = "Sunday" then 6
  else -1

/-- `getDayName` from the timezone utilities: `days[dayIndex % 7]`.
Every call site passes an index in `[0, 6]`, where `Int.emod` agrees
with JavaScript's `%`. -/
def getDayName (dayIndex : Int) : String :=
  if dayIndex % 7 = 0 then "Monday"
  else if dayIndex % 7 = 1 then "Tuesday"
  else if dayIndex % 7 = 2 then "Wednesday"
  else if dayIndex % 7 = 3 then "Thursday"
  else if dayIndex % 7 = 4 then "Friday"
  else if dayIndex % 7 = 5 then "Saturday"
  else "Sunday"

/-- JavaScript `Date.prototype.getDay` on a day number: day 0
(1970-01-01) was a Thursday, so Sunday-first weekday = `(dayNum + 4) % 7`. -/
def jsGetDay (dayNum : Int) : Int := (dayNum + 4) % 7

/-- The zone database's answer for one IANA identifier: the UTC offset
(minutes east) in effect at an absolute instant (`utcToZonedTime`), and
the offset `zonedTimeToUtc` resolves for a nominal wall-clock datetime. -/
structure ZoneRules where
  offAtUtc : Int → Int
  offAtLocal : Int → Int

/-- The abstract zone database: `none` models an unresolvable IANA
identifier (in the source, `date-fns-tz` throws a `RangeError`, which the
callers catch). -/
def ZoneDb : Type := String → Option ZoneRules

/-- Hinnant's `days_from_civil`: day number of a Gregorian calendar date
(what `Date.UTC(y, m-1, d) / 86400000` computes). -/
def daysFromCivil (y m d : Int) : Int :=
  let yy := if m ≤ 2 then y - 1 else y
  let era := yy / 400
  let yoe := yy - era * 400
  let doy := (153 * (if 2 < m then m - 3 else m + 9) + 2) / 5 + d - 1
  let doe := yoe * 365 + yoe / 4 - yoe / 100 + doy
  era * 146097 + doe - 719468

/-- Hinnant's `civil_from_days`: the `(year, month, day)` a JavaScript
`Date` reports for a day number. -/
def civilFromDays (z : Int) : Int × Int × Int :=
  let zz := z + 719468
  let era := zz / 146097
  let doe := zz - era * 146097
  let yoe := (doe - doe / 1460 + doe / 36524 - doe / 146096) / 365
  let y := yoe + era * 400
  let doy := doe - (365 * yoe + yoe / 4 - yoe / 100)
  let mp := (5 * doy + 2) / 153
  let d := doy - (153 * mp + 2) / 5 + 1
  let m := if mp < 10 then mp + 3 else mp - 9
  (if m ≤ 2 then y + 1 else y, m, d)

/-- Decimal digit character. -/
def digitChar (n : Nat) : Char := Char.ofNat (48 + n)

/-- Decimal digits of a natural number, most significant first (fuel
bounded so the kernel evaluates it; 39 digits covers every value the
calendar arithmetic can produce). -/
def natDecimalAux : Nat → Nat → List Char → List Char
  | 0, _, acc => acc
  | fuel + 1, n, acc =>
    if n < 10 then digitChar n :: acc
    else natDecimalAux fuel (n / 10) (digitChar (n % 10) :: acc)

/-- JavaScript's base-10 `Number.prototype.toString` on an integer. -/
def intToString (i : Int) : String :=
  if i < 0 then "-" ++ ⟨natDecimalAux 39 (-i).toNat []⟩
  else ⟨natDecimalAux 39 i.toNat []⟩

/-- Two-digit zero padding: `String.padStart(2, '0')` as applied to
month and day numbers. -/
def pad2 (n : Int) : String :=
  if n < 10 then "0" ++ intToString n else intToString n

/-- The dash-separated, zero-padded ISO date string the availability map
builds from a converted `Date`'s year, month and day fields. -/
def formatYMD (y m d : Int) : String :=
  intToString y ++ "-" ++ pad2 m ++ "-" ++ pad2 d

/-- Split a character list at every occurrence of `sep`. -/
def splitOnSep (sep : Char) : List Char → List (List Char)
  | [] => [[]]
  | c :: cs =>
    match splitOnSep sep cs with
    | [] => if c = sep then [[], []] else [[c]]
    | grp :: rest => if c = sep then [] :: grp :: rest else (c :: grp) :: rest

/-- The natural number a nonempty list of decimal digits denotes. -/
def digitsToNat : List Char → Option Nat
  | [] => none
  | cs =>
    cs.foldl
      (fun acc c =>
        match acc with
        | none => none
        | some n =>
          if 48 ≤ c.toNat ∧ c.toNat ≤ 57 then some (n * 10 + (c.toNat - 48))
          else none)
      (some 0)

/-- Parsing of a stored "YYYY-MM-DD" date key, as JavaScript's ISO date
parsing accepts it when the key is suffixed with a wall-clock time.
`none` models the unparseable case (an `Invalid Date`, which makes the
subsequent conversion fail). -/
def parseYMD (s : String) : Option (Int × Int × Int) :=
  match splitOnSep '-' s.data with
  | [ys, ms, ds] =>
    match digitsToNat ys, digitsToNat ms, digitsToNat ds with
    | some y, some m, some d => some ((y : Int), (m : Int), (d : Int))
    | _, _, _ => none
  | _ => none

/-- `convertTimeSlot` of src/utils/timezone.ts (part_002 lines 508-572).
Weekly mode (`specificDate = none`): an unrecognized weekday name is
warned about and the slot returned unconverted; otherwise the next
occurrence of the weekday on or after `todayNum` carries `hour` as wall
time in the participant zone, is pivoted through the absolute instant,
and read back in the user zone.  Specific mode parses the date directly.
The `catch` (zone lookup or date construction failing) returns the
unconverted `(day, hour)`. -/
def convertTimeSlot (db : ZoneDb) (participantTimezone userTimezone : String)
    (day : String) (hour : Int) (specificDate : Option String)
    (todayNum : Int) : String × Int :=
  let targetWall : Option Int :=
    match specificDate with
    | some sd =>
      match parseYMD sd with
      | some ymd => some (daysFromCivil ymd.1 ymd.2.1 ymd.2.2 * 1440 + hour * 60)
      | none => none
    | none =>
      let targetDayIndex := getDayIndex day
      if targetDayIndex = -1 then none
      else
        let jsDayIndex := if targetDayIndex = 6 then 0 else targetDayIndex + 1
        let daysToAdd0 := jsDayIndex - jsGetDay todayNum
        let daysToAdd := if daysToAdd0 < 0 then daysToAdd0 + 7 else daysToAdd0
        some ((todayNum + daysToAdd) * 1440 + hour * 60)
  match targetWall, db participantTimezone, db userTimezone with
  | some wall, some pz, some uz =>
    let utcTime := wall - pz.offAtLocal wall
    let userLocalTime := utcTime + uz.offAtUtc utcTime
    let userDayOfWeek := jsGetDay (userLocalTime / 1440)
    let userDayIndex := if userDayOfWeek = 0 then 6 else userDayOfWeek - 1
    (getDayName userDayIndex, (userLocalTime / 60) % 24)
  | _, _, _ => (day, hour)

/-- `getLocalTimeParts` (part_002 lines 579-594) reads an
`Intl.DateTimeFormat` formatter's parts.  The formatter is abstract:
`FmtParts.weekday` is the weekday part's value and `FmtParts.hourNum`
the numeric value of the hour part's digits (the `parseInt` of a part
`Intl` emits with `hour: 'numeric'`; `none` models a missing part, for
which the source substitutes `'0'`). -/
structure FmtParts where
  weekday : Option String
  hourNum : Option Nat

/-- `getLocalTimeParts`: weekday part (or the empty string) and the
parsed hour reduced `% 24` — per the source comment, this handles a
formatter that emits 24 for midnight. -/
def getLocalTimeParts (fmt : Int → String → FmtParts) (date : Int)
    (timeZone : String) : String × Nat :=
  let parts := fmt date timeZone
  (parts.weekday.getD "", (parts.hourNum.getD 0) % 24)

/-- `getTimezoneOffset` (part_002 lines 689-695): round-trips the
instant through `utcToZonedTime` and `zonedTimeToUtc` and subtracts
(the source divides milliseconds by 60000; minutes are the unit here). -/
def getTimezoneOffset (z : ZoneRules) (date : Int) : Int :=
  let utcDate := date
  let zonedDate := utcDate + z.offAtUtc utcDate
  let utcTime := zonedDate - z.offAtLocal zonedDate
  utcTime - utcDate

/-- The calendar year a `Date` at instant `t` reports (browser at UTC). -/
def yearOfInstant (t : Int) : Int := (civilFromDays (t / 1440)).1

/-- `isDaylightSavingTime` (part_002 lines 669-684): compares
`getTimezoneOffset` at the instant with `getTimezoneOffset` at
`new Date(year, 0, 1)`; any failure (unresolvable zone) is caught and
yields `false`. -/
def isDaylightSavingTime (db : ZoneDb) (date : Int) (timezone : String) : Bool :=
  match db timezone with
  | none => false
  | some z =>
    let currentOffset := getTimezoneOffset z date
    let winterDate := daysFromCivil (yearOfInstant date) 1 1 * 1440
    let winterOffset := getTimezoneOffset z winterDate
    decide (currentOffset ≠ winterOffset)

/-- Availability mode of a participant (`'weekly' | 'specific'`). -/
inductive AvailabilityType where
  | weekly
  | specific
deriving DecidableEq

/-- A participant (src/src/types/index.ts), restricted to the fields the
conversion and aggregation functions read (`role` and `createdAt` are
never consulted by them).  `availability` maps a key — a weekday name in
weekly mode, an ISO date in specific mode — to its list of hours. -/
structure Participant where
  id : String
  name : String
  timezone : String
  availability : List (String × List Int)
  availabilityType : AvailabilityType
deriving DecidableEq

/-- Result of `convertTimeSlotSpecific` (part_003 lines 855-902). -/
structure ConvertedSpecific where
  date : String
  hour : Int
  dayName : String
deriving DecidableEq

/-- `convertTimeSlotSpecific` of the availability map (part_003 lines
855-902): builds the participant's wall-clock datetime from the date
key and hour, pivots through the absolute instant, and reads the user
zone's date string, hour and weekday name.  The `catch` returns the raw
key, the raw hour and `'Monday'`. -/
def convertTimeSlotSpecific (db : ZoneDb) (participantTimezone userTimezone : String)
    (participantDateKey : String) (participantHour : Int) : ConvertedSpecific :=
  match parseYMD participantDateKey, db participantTimezone, db userTimezone with
  | some ymd, some pz, some uz =>
    let wall := daysFromCivil ymd.1 ymd.2.1 ymd.2.2 * 1440 + participantHour * 60
    let utcTime := wall - pz.offAtLocal wall
    let userDateTime := utcTime + uz.offAtUtc utcTime
    let userDayNum := userDateTime / 1440
    let c := civilFromDays userDayNum
    let userHour := (userDateTime / 60) % 24
    let userDayOfWeek := jsGetDay userDayNum
    let userDayIndex := if userDayOfWeek = 0 then 6 else userDayOfWeek - 1
    { date := formatYMD c.1 c.2.1 c.2.2
      hour := userHour
      dayName := getDayName userDayIndex }
  | _, _, _ =>
    { date := participantDateKey, hour := participantHour, dayName := "Monday" }

/-- The weekly-mode conversion inlined in `getAvailabilityData`
(part_003 lines 948-991): same pivot arithmetic as `convertTimeSlot`,
but an unrecognized weekday name `return`s from the callback (the entry
is skipped), and the `catch` also just continues — both are `none`,
meaning this raw entry contributes nothing. -/
def convertWeeklyEntryAgg (db : ZoneDb) (participantTimezone userTimezone : String)
    (participantDay : String) (participantHour : Int)
    (todayNum : Int) : Option (String × Int) :=
  let dayIndex := getDayIndex participantDay
  if dayIndex = -1 then none
  else
    match db participantTimezone, db userTimezone with
    | some pz, some uz =>
      let jsDayIndex := if dayIndex = 6 then 0 else dayIndex + 1
      let daysToAdd0 := jsDayIndex - jsGetDay todayNum
      let daysToAdd := if daysToAdd0 < 0 then daysToAdd0 + 7 else daysToAdd0
      let targetWall := (todayNum + daysToAdd) * 1440 + participantHour * 60
      let utcTime := targetWall - pz.offAtLocal targetWall
      let userDateTime := utcTime + uz.offAtUtc utcTime
      let userDayOfWeek := jsGetDay (userDateTime / 1440)
      let userDayIndex := if userDayOfWeek = 0 then 6 else userDayOfWeek - 1
      some (getDayName userDayIndex, (userDateTime / 60) % 24)
    | _, _ => none

/-- One participant's pushes into the cell `(day, hour)` (and, in
specific mode, the `specificDate` column): the inner loops of
`getAvailabilityData` (part_003 lines 943-1018) push the participant
once per raw `(key, hour)` entry whose conversion matches the cell. -/
def participantCellContribution (db : ZoneDb) (participant : Participant)
    (userTimezone day : String) (hour : Int) (specificDate : Option String)
    (todayNum : Int) : List Participant :=
  match specificDate with
  | none =>
    if participant.availabilityType = AvailabilityType.weekly then
      participant.availability.flatMap (fun entry =>
        entry.2.flatMap (fun participantHour =>
          if convertWeeklyEntryAgg db participant.timezone userTimezone
              entry.1 participantHour todayNum = some (day, hour)
          then [participant] else []))
    else []
  | some sd =>
    if participant.availabilityType = AvailabilityType.specific then
      participant.availability.flatMap (fun entry =>
        entry.2.flatMap (fun participantHour =>
          let converted := convertTimeSlotSpecific db participant.timezone
              userTimezone entry.1 participantHour
          if converted.date = sd ∧ converted.hour = hour ∧ converted.dayName = day
          then [participant] else []))
    else []

/-- `getAvailabilityData` (part_003 lines 932-1025): the ordered list of
participants pushed for the cell — `availableParticipants` in the
source; its length is the returned `count`. -/
def getAvailabilityData (db : ZoneDb) (participants : List Participant)
    (userTimezone day : String) (hour : Int) (specificDate : Option String)
    (todayNum : Int) : List Participant :=
  participants.flatMap (fun participant =>
    participantCellContribution db participant userTimezone day hour
      specificDate todayNum)

/-- How many times one participant is pushed for the cell. -/
def participantMatchCount (db : ZoneDb) (participant : Participant)
    (userTimezone day : String) (hour : Int) (specificDate : Option String)
    (todayNum : Int) : Nat :=
  (participantCellContribution db participant userTimezone day hour
    specificDate todayNum).length

/-- The full-coverage flag a rendered cell shows (`renderTimeSlot`,
part_003 lines 1034-1050): a cell with `count === 0` returns the empty
cell before the flag is computed (so it is `false`), otherwise
`isAllParticipants = (count === totalParticipants)` with
`totalParticipants = participants.length`. -/
def renderTimeSlotIsFullCoverage (db : ZoneDb) (participants : List Participant)
    (userTimezone day : String) (hour : Int) (specificDate : Option String)
    (todayNum : Int) : Bool :=
  let count := (getAvailabilityData db participants userTimezone day hour
    specificDate todayNum).length
  if count = 0 then false
  else decide (count = participants.length)

/-- The multiset of observer-zone date strings produced by converting
every specific-mode raw entry — the contents of the `allDates` set of
`getAllPossibleDates` (part_003 lines 905-926) before deduplication. -/
def rawConvertedDates (db : ZoneDb) (participants : List Participant)
    (userTimezone : String) : List String :=
  participants.flatMap (fun participant =>
    if participant.availabilityType = AvailabilityType.specific then
      participant.availability.flatMap (fun entry =>
        entry.2.map (fun hour =>
          (convertTimeSlotSpecific db participant.timezone userTimezone
            entry.1 hour).date))
    else [])

/-- `getAllPossibleDates` (part_003 lines 905-926): the converted dates,
deduplicated by the `Set`, then `Array.from(...).sort()`.  JavaScript's
default sort is lexicographic; on the distinct zero-padded ISO strings
the `Set` holds, any first-kept/last-kept deduplication followed by the
sort yields the same sorted duplicate-free list. -/
def getAllPossibleDates (db : ZoneDb) (participants : List Participant)
    (userTimezone : String) : List String :=
  List.insertionSort (fun a b => a ≤ b)
    (rawConvertedDates db participants userTimezone).dedup

/-- Key under which the participant list is persisted
(src/src/utils/storage.ts). -/
def STORAGE_KEY : String := "rp-court-participants"

/-- `saveParticipants` (storage.ts lines 5-11) with the store and the
JSON serializer made explicit: `localStorage.setItem(STORAGE_KEY,
JSON.stringify(participants))`.  The success path is modelled (a failing
`setItem` is caught and leaves the store unchanged). -/
def saveParticipants (stringify : List Participant → String)
    (store : String → Option String) (participants : List Participant) :
    String → Option String :=
  fun k => if k = STORAGE_KEY then some (stringify participants) else store k

/-- `loadParticipants` (storage.ts lines 13-21): `getItem` then
`stored ? JSON.parse(stored) : []`; an empty string is falsy, and a
`JSON.parse` failure is caught and yields `[]`. -/
def loadParticipants (parse : String → Option (List Participant))
    (store : String → Option String) : List Participant :=
  match store STORAGE_KEY with
  | none => []
  | some stored =>
    if stored = "" then []
    else match parse stored with
      | some participants => participants
      | none => []

/-! Concrete zone databases, participants and codecs used by the closed
theorems below.  Each zone's offsets are the real offsets of the zone it
names at the instants the theorem evaluates. -/

/-- A zone pinned at UTC: offset 0 at every instant. -/
def zoneZero : ZoneRules := ⟨fun _ => 0, fun _ => 0⟩

/-- A database resolving every identifier to the zero-offset zone. -/
def dbZero : ZoneDb := fun _ => some zoneZero

/-- A weekly participant whose single raw entry carries hour 24,
outside [0, 23]. -/
def pHour24 : Participant :=
  ⟨"p1", "Alice", "Zone/Zero", [("Monday", [24])], .weekly⟩

/-- A weekly participant with the single in-range entry Monday, hour 2. -/
def pSimple : Participant :=
  ⟨"p1", "Alice", "Zone/Zero", [("Monday", [2])], .weekly⟩

/-- Zone rules with a spring-forward gap in the reference week: the
offset `zonedTimeToUtc` resolves jumps from -300 to -240 at the wall
minute 5940 (03:00 of day 4), the shape date-fns-tz gives
America/New_York for a transition Sunday, where a nonexistent wall hour
resolves with the pre-transition offset and lands on the same instant
as the hour after the gap. -/
def gapRules : ZoneRules :=
  ⟨fun _ => -300, fun w => if w < 5940 then -300 else -240⟩

/-- Database mapping the participant zone to the gap rules and every
other identifier (the observer) to UTC. -/
def dbGap : ZoneDb := fun s => if s = "Area/Gap" then some gapRules else some zoneZero

/-- A weekly participant with the two raw entries Monday 02:00 and
Monday 03:00, both of which the gap zone converts to the same instant. -/
def pGap : Participant := ⟨"p2", "Bob", "Area/Gap", [("Monday", [2, 3])], .weekly⟩

/-- America/Los_Angeles during July 2024: PDT, UTC-07:00 (-420 min). -/
def laRules : ZoneRules := ⟨fun _ => -420, fun _ => -420⟩

/-- Europe/London during July 2024: BST, UTC+01:00 (+60 min). -/
def londonRules : ZoneRules := ⟨fun _ => 60, fun _ => 60⟩

/-- The zone database for scenario B of the spec. -/
def dbScenarioB : ZoneDb := fun s =>
  if s = "America/Los_Angeles" then some laRules
  else if s = "Europe/London" then some londonRules
  else none

/-- Start of the 2024 CEST period: 2024-03-31T01:00Z, in minutes. -/
def summerStart2024 : Int := daysFromCivil 2024 3 31 * 1440 + 60

/-- End of the 2024 CEST period: 2024-10-27T01:00Z, in minutes. -/
def summerEnd2024 : Int := daysFromCivil 2024 10 27 * 1440 + 60

/-- Europe/Berlin during 2024: UTC+02:00 inside the CEST period,
UTC+01:00 outside it, resolved consistently for wall-clock datetimes
away from the transitions. -/
def berlinRules : ZoneRules :=
  ⟨fun t => if summerStart2024 ≤ t ∧ t < summerEnd2024 then 120 else 60,
   fun w => if summerStart2024 ≤ w ∧ w < summerEnd2024 then 120 else 60⟩

/-- Database resolving Europe/Berlin only. -/
def dbBerlin : ZoneDb := fun s =>
  if s = "Europe/Berlin" then some berlinRules else none

/-- The instant 2024-07-01T00:00Z, in minutes: CEST is in effect. -/
def tJuly2024 : Int := daysFromCivil 2024 7 1 * 1440

/-- Asia/Kolkata: IST, the constant non-hour offset UTC+05:30 (+330 min). -/
def kolkataRules : ZoneRules := ⟨fun _ => 330, fun _ => 330⟩

/-- Database with a whole-hour zone (UTC) and a half-hour zone (IST),
neither of which ever observes DST. -/
def dbHalfHour : ZoneDb := fun s =>
  if s = "Etc/UTC" then some zoneZero
  else if s = "Asia/Kolkata" then some kolkataRules
  else none

/-- A constant whole-hour zone at UTC+01:00. -/
def zoneEast1 : ZoneRules := ⟨fun _ => 60, fun _ => 60⟩

/-- A constant whole-hour zone at UTC-05:00. -/
def zoneWest5 : ZoneRules := ⟨fun _ => -300, fun _ => -300⟩

/-- Database with two constant whole-hour zones. -/
def dbWholeHour : ZoneDb := fun s =>
  if s = "Zone/East1" then some zoneEast1
  else if s = "Zone/West5" then some zoneWest5
  else none

/-- A database in which no identifier resolves. -/
def dbNone : ZoneDb := fun _ => none

/-- A trivial serializer for the storage witness: every list prints as
the empty JSON array. -/
def stringifyEmpty : List Participant → String := fun _ => "[]"

/-- The matching parser: the empty JSON array reads back as `[]`. -/
def parseEmpty : String → Option (List Participant) :=
  fun s => if s = "[]" then some [] else none

/-- An empty backing store. -/
def storeEmpty : String → Option String := fun _ => none

/-! Helper lemmas shared by the claim theorems. -/

/-- Looking a generated weekday name back up yields the index modulo 7. -/
theorem getDayIndex_getDayName (u : Int) : getDayIndex (getDayName u) = u % 7 := by
  unfold getDayName
  split_ifs with h1 h2 h3 h4 h5 h6
  · rw [h1]; rfl
  · rw [h2]; rfl
  · rw [h3]; rfl
  · rw [h4]; rfl
  · rw [h5]; rfl
  · rw [h6]; rfl
  · have h7 : u % 7 = 6 := by omega
    rw [h7]; rfl

/-- `getDayName` only depends on the index modulo 7. -/
theorem getDayName_congr {u v : Int} (h : u % 7 = v % 7) :
    getDayName u = getDayName v := by
  unfold getDayName
  rw [h]

/-- A recognized weekday name is one of the seven canonical names, with
an index in [0, 6] that maps back to it. -/
theorem validDay (day : String) (h : getDayIndex day ≠ -1) :
    ∃ i : Int, 0 ≤ i ∧ i ≤ 6 ∧ getDayIndex day = i ∧ getDayName i = day := by
  by_cases h1 : day = "Monday"
  · subst h1; exact ⟨0, by norm_num, by norm_num, rfl, rfl⟩
  by_cases h2 : day = "Tuesday"
  · subst h2; exact ⟨1, by norm_num, by norm_num, rfl, rfl⟩
  by_cases h3 : day = "Wednesday"
  · subst h3; exact ⟨2, by norm_num, by norm_num, rfl, rfl⟩
  by_cases h4 : day = "Thursday"
  · subst h4; exact ⟨3, by norm_num, by norm_num, rfl, rfl⟩
  by_cases h5 : day = "Friday"
  · subst h5; exact ⟨4, by norm_num, by norm_num, rfl, rfl⟩
  by_cases h6 : day = "Saturday"
  · subst h6; exact ⟨5, by norm_num, by norm_num, rfl, rfl⟩
  by_cases h7 : day = "Sunday"
  · subst h7; exact ⟨6, by norm_num, by norm_num, rfl, rfl⟩
  exfalso; exact h (by simp [getDayIndex, h1, h2, h3, h4, h5, h6, h7])

/-- Closed form of a weekly conversion between two zones whose resolved
offsets are the constants `a` (source) and `b` (target) at every
instant involved. -/
theorem convertTimeSlot_eval (db : ZoneDb) (zS zU : String) (zs zu : ZoneRules)
    (a b : Int) (day : String) (i hour T : Int)
    (hS : db zS = some zs) (hU : db zU = some zu)
    (hsl : ∀ w, zs.offAtLocal w = a) (huu : ∀ t, zu.offAtUtc t = b)
    (hidx : getDayIndex day = i) (hi : ¬ i = -1) :
    convertTimeSlot db zS zU day hour none T =
      (let ji := if i = 6 then 0 else i + 1
       let dta0 := ji - jsGetDay T
       let dta := if dta0 < 0 then dta0 + 7 else dta0
       let w := (T + dta) * 1440 + hour * 60 - a + b
       (getDayName (if jsGetDay (w / 1440) = 0 then 6 else jsGetDay (w / 1440) - 1),
        w / 60 % 24)) := by
  unfold convertTimeSlot
  rw [hidx, if_neg hi, hS, hU]
  dsimp only
  simp only [hsl, huu]

/-- When either zone fails to resolve, `convertTimeSlot` returns the
unconverted input slot (the catch-block fallback). -/
theorem convertTimeSlot_fallback (db : ZoneDb) (ptz utz day : String)
    (hour : Int) (sd : Option String) (todayNum : Int)
    (h : db ptz = none ∨ db utz = none) :
    convertTimeSlot db ptz utz day hour sd todayNum = (day, hour) := by
  unfold convertTimeSlot
  dsimp only
  generalize (match sd with
    | some s =>
      match parseYMD s with
      | some ymd => some (daysFromCivil ymd.1 ymd.2.1 ymd.2.2 * 1440 + hour * 60)
      | none => none
    | none =>
      if getDayIndex day = -1 then none
      else
        some ((todayNum +
          if (if getDayIndex day = 6 then 0 else getDayIndex day + 1) - jsGetDay todayNum < 0
          then (if getDayIndex day = 6 then 0 else getDayIndex day + 1) - jsGetDay todayNum + 7
          else (if getDayIndex day = 6 then 0 else getDayIndex day + 1) - jsGetDay todayNum) * 1440
          + hour * 60) : Option Int) = tw
  cases tw with
  | none => rfl
  | some wall =>
    rcases h with h | h
    · rw [h]
    · rw [h]
      cases db ptz <;> rfl

/-- Every element of a cell contribution is the contributing participant. -/
theorem mem_contribution_eq (db : ZoneDb) (p : Participant) (utz day : String)
    (hour : Int) (sd : Option String) (todayNum : Int) :
    ∀ x ∈ participantCellContribution db p utz day hour sd todayNum, x = p := by
  intro x hx
  unfold participantCellContribution at hx
  rcases sd with _ | sd <;> simp at hx <;> tauto

/-- A cell contribution is the participant repeated once per matching
raw entry. -/
theorem contribution_eq_replicate (db : ZoneDb) (p : Participant)
    (utz day : String) (hour : Int) (sd : Option String) (todayNum : Int) :
    participantCellContribution db p utz day hour sd todayNum =
      List.replicate (participantMatchCount db p utz day hour sd todayNum) p :=
  List.eq_replicate_of_mem (mem_contribution_eq db p utz day hour sd todayNum)

/-- When every participant matches the cell through at most one raw
entry, the membership list is a sublist of the participant list. -/
theorem getAvailabilityData_sublist (db : ZoneDb) (utz day : String)
    (hour : Int) (sd : Option String) (todayNum : Int) :
    ∀ ps : List Participant,
      (∀ p ∈ ps, participantMatchCount db p utz day hour sd todayNum ≤ 1) →
      (getAvailabilityData db ps utz day hour sd todayNum).Sublist ps := by
  intro ps
  induction ps with
  | nil => intro _; simp [getAvailabilityData]
  | cons p rest ih =>
    intro hcnt
    have hp : participantMatchCount db p utz day hour sd todayNum ≤ 1 :=
      hcnt p (List.mem_cons_self _ _)
    have hrest := ih (fun r hr => hcnt r (List.mem_cons_of_mem _ hr))
    unfold getAvailabilityData at hrest ⊢
    rw [List.flatMap_cons, contribution_eq_replicate]
    rcases Nat.le_one_iff_eq_zero_or_eq_one.mp hp with h0 | h1
    · rw [h0]
      simpa using hrest.cons p
    · rw [h1]
      simpa using hrest.cons₂ p

/-! The claim theorems. -/

/-- C1, counterexample: an entry whose hour lies outside [0, 23] is not
skipped.  With every zone at UTC and Monday (day 4) as the reference
today, the raw entry (Monday, 24) of `pHour24` rolls over to Tuesday
00:00 and lands in that grid cell's membership list, so the entry does
contribute to a cell, contrary to the claim. -/
theorem c1_hour_out_of_range_contributes :
    getAvailabilityData dbZero [pHour24] "Zone/Zero" "Tuesday" 0 none 4 =
      [pHour24] := by
  decide

/-- C1, amended: only the weekday-name half of the validation exists in
the aggregation.  An entry whose weekday name is not one of the seven
canonical names is skipped by `getAvailabilityData`'s inlined weekly
conversion and contributes to no grid cell's membership; hours outside
[0, 23] are carried through date rollover instead of being skipped. -/
theorem c1_invalid_weekday_skipped (db : ZoneDb) (ptz utz dayKey : String)
    (hr todayNum : Int) (pid pname day : String) (hour : Int)
    (h : getDayIndex dayKey = -1) :
    convertWeeklyEntryAgg db ptz utz dayKey hr todayNum = none ∧
    getAvailabilityData db [⟨pid, pname, ptz, [(dayKey, [hr])], .weekly⟩]
      utz day hour none todayNum = [] := by
  have hconv : convertWeeklyEntryAgg db ptz utz dayKey hr todayNum = none := by
    unfold convertWeeklyEntryAgg
    rw [h]
    rfl
  refine ⟨hconv, ?_⟩
  unfold getAvailabilityData participantCellContribution
  simp [hconv]

/-- C1, witness: the amended statement at the unrecognized name
Caturday. -/
theorem c1_invalid_weekday_skipped_witness :
    convertWeeklyEntryAgg dbZero "Zone/Zero" "Zone/Zero" "Caturday" 10 4 = none ∧
    getAvailabilityData dbZero
      [⟨"p9", "Cara", "Zone/Zero", [("Caturday", [10])], .weekly⟩]
      "Zone/Zero" "Monday" 10 none 4 = [] :=
  c1_invalid_weekday_skipped dbZero "Zone/Zero" "Zone/Zero" "Caturday" 10 4
    "p9" "Cara" "Monday" 10 (by decide)

/-- C2: when zone resolution fails (either zone unresolvable),
`convertTimeSlot` does not throw but returns the unconverted
`(key, hour)` — in both weekly and specific-date mode — and a
specific-date key whose datetime cannot be constructed also falls back
to the unconverted slot; aggregation distributes over the participant
list, so one participant's entries never remove or alter another
participant's contribution to any cell. -/
theorem c2_conversion_failure_isolated (db : ZoneDb) (ptz utz day : String)
    (hour todayNum : Int) (ps qs : List Participant) (utz2 day2 : String)
    (hour2 : Int) (sd : Option String) (todayNum2 : Int)
    (h : db ptz = none ∨ db utz = none) :
    (∀ sd0 : Option String,
      convertTimeSlot db ptz utz day hour sd0 todayNum = (day, hour)) ∧
    (∀ sdBad : String, parseYMD sdBad = none →
      convertTimeSlot db ptz utz day hour (some sdBad) todayNum = (day, hour)) ∧
    getAvailabilityData db (ps ++ qs) utz2 day2 hour2 sd todayNum2 =
      getAvailabilityData db ps utz2 day2 hour2 sd todayNum2 ++
        getAvailabilityData db qs utz2 day2 hour2 sd todayNum2 := by
  refine ⟨fun sd0 => convertTimeSlot_fallback db ptz utz day hour sd0 todayNum h,
    fun sdBad hbad => ?_, ?_⟩
  · unfold convertTimeSlot
    dsimp only
    rw [hbad]
  · unfold getAvailabilityData
    exact List.flatMap_append ..

/-- C2, witness: an unresolvable participant zone at concrete inputs. -/
theorem c2_conversion_failure_isolated_witness :
    (∀ sd0 : Option String,
      convertTimeSlot dbNone "Zone/X" "Zone/Y" "Monday" 9 sd0 4 = ("Monday", 9)) ∧
    (∀ sdBad : String, parseYMD sdBad = none →
      convertTimeSlot dbNone "Zone/X" "Zone/Y" "Monday" 9 (some sdBad) 4 =
        ("Monday", 9)) ∧
    getAvailabilityData dbNone ([pSimple] ++ [pGap]) "Zone/Y" "Monday" 9 none 4 =
      getAvailabilityData dbNone [pSimple] "Zone/Y" "Monday" 9 none 4 ++
        getAvailabilityData dbNone [pGap] "Zone/Y" "Monday" 9 none 4 :=
  c2_conversion_failure_isolated dbNone "Zone/X" "Zone/Y" "Monday" 9 4
    [pSimple] [pGap] "Zone/Y" "Monday" 9 none 4 (Or.inl rfl)

/-- C3: the rendered full-coverage flag is true exactly when the cell's
membership count equals the total participant count, except that with
zero participants every cell's flag is false (the cell renders as empty
before the flag is computed). -/
theorem c3_full_coverage_iff (db : ZoneDb) (ps : List Participant)
    (utz day : String) (hour : Int) (sd : Option String) (todayNum : Int) :
    (ps.length = 0 →
      renderTimeSlotIsFullCoverage db ps utz day hour sd todayNum = false) ∧
    (0 < ps.length →
      (renderTimeSlotIsFullCoverage db ps utz day hour sd todayNum = true ↔
        (getAvailabilityData db ps utz day hour sd todayNum).length =
          ps.length)) := by
  constructor
  · intro h
    have hnil : ps = [] := List.length_eq_zero.mp h
    subst hnil
    rfl
  · intro hpos
    unfold renderTimeSlotIsFullCoverage
    dsimp only
    by_cases hc : (getAvailabilityData db ps utz day hour sd todayNum).length = 0
    · rw [if_pos hc, hc]
      simp
      omega
    · rw [if_neg hc]
      simp

/-- C4, counterexample: the membership push has no already-present
check.  In a zone with a spring-forward gap, the two distinct raw
entries (Monday, 2) and (Monday, 3) of `pGap` resolve to the same
absolute instant and thus the same observer cell (Monday 07:00 UTC),
and the participant appears twice in that cell's membership list. -/
theorem c4_duplicate_membership_cex :
    getAvailabilityData dbGap [pGap] "Etc/UTC" "Monday" 7 none 4 =
      [pGap, pGap] := by
  decide

/-- C4, amended: a participant appears once per raw entry that converts
to the cell, so membership is duplicate-free and preserves canonical
insertion order (it is a sublist of the participant list) whenever each
participant has at most one raw entry converting to the cell; two
entries converting to the same cell produce a duplicate instead of
being skipped. -/
theorem c4_membership_nodup_of_unique_match (db : ZoneDb)
    (ps : List Participant) (utz day : String) (hour : Int)
    (sd : Option String) (todayNum : Int)
    (hcnt : ∀ p ∈ ps, participantMatchCount db p utz day hour sd todayNum ≤ 1)
    (hnd : ps.Nodup) :
    (getAvailabilityData db ps utz day hour sd todayNum).Sublist ps ∧
    (getAvailabilityData db ps utz day hour sd todayNum).Nodup := by
  have hs := getAvailabilityData_sublist db utz day hour sd todayNum ps hcnt
  exact ⟨hs, hs.nodup hnd⟩

/-- C4, witness: the amended statement for a single participant with a
single matching entry. -/
theorem c4_membership_nodup_witness :
    (getAvailabilityData dbZero [pSimple] "Zone/Zero" "Monday" 2 none 4).Sublist
      [pSimple] ∧
    (getAvailabilityData dbZero [pSimple] "Zone/Zero" "Monday" 2 none 4).Nodup :=
  c4_membership_nodup_of_unique_match dbZero [pSimple] "Zone/Zero" "Monday" 2
    none 4 (by decide) (by decide)

/-- C5: evaluation of the code at the failing input.  At
2024-07-01T00:00Z the Berlin rules give UTC offset +120 while on
January 1 of the same year they give +60 — the claim (and the source's
own doc comments) say `isDaylightSavingTime` must return true — yet the
code returns false, because `getTimezoneOffset` round-trips the instant
through `utcToZonedTime` and `zonedTimeToUtc` and subtracts, which
yields 0 at both instants whenever the zone resolves consistently. -/
theorem c5_dst_heuristic_returns_false :
    isDaylightSavingTime dbBerlin tJuly2024 "Europe/Berlin" = false ∧
    berlinRules.offAtUtc tJuly2024 ≠
      berlinRules.offAtUtc (daysFromCivil (yearOfInstant tJuly2024) 1 1 * 1440) := by
  decide

/-- C6: in specific-date mode the date enumeration returns exactly the
converted observer-zone dates — ascending-sorted, duplicate-free, with
no date filtered out or added. -/
theorem c6_enumeration_sorted_dedup_complete (db : ZoneDb)
    (ps : List Participant) (utz : String) :
    List.Sorted (fun a b : String => a ≤ b) (getAllPossibleDates db ps utz) ∧
    (getAllPossibleDates db ps utz).Nodup ∧
    ∀ s, s ∈ getAllPossibleDates db ps utz ↔ s ∈ rawConvertedDates db ps utz := by
  unfold getAllPossibleDates
  refine ⟨List.sorted_insertionSort _ _, ?_, fun s => ?_⟩
  · exact ((List.perm_insertionSort _ _).nodup_iff).mpr (List.nodup_dedup _)
  · exact ((List.perm_insertionSort _ _).mem_iff).trans List.mem_dedup

/-- C7, counterexample: with the resolvable constant-offset zones UTC
and Asia/Kolkata (UTC+05:30, never DST) the round trip of (Monday, 0)
does not return the original slot — the half-hour offset is truncated
by the hour read-back, and the second conversion returns (Sunday, 23). -/
theorem c7_roundtrip_cex_half_hour :
    convertTimeSlot dbHalfHour "Asia/Kolkata" "Etc/UTC"
        (convertTimeSlot dbHalfHour "Etc/UTC" "Asia/Kolkata" "Monday" 0 none 4).1
        (convertTimeSlot dbHalfHour "Etc/UTC" "Asia/Kolkata" "Monday" 0 none 4).2
        none 4 ≠ ("Monday", 0) := by
  decide

set_option maxHeartbeats 3200000 in
/-- C7, amended: for zones whose resolved offsets are constant
whole-hour multiples throughout the conversion window (no DST
transition between the pivot instants), converting a valid weekday slot
from zone A to zone B and back to A with the same reference today
returns the original (key, hour). -/
theorem c7_roundtrip_whole_hour_offsets (db : ZoneDb) (zA zB : String)
    (za zb : ZoneRules) (p q : Int) (day : String) (hour T : Int)
    (hA : db zA = some za) (hB : db zB = some zb)
    (ha1 : ∀ t, za.offAtUtc t = 60 * p) (ha2 : ∀ w, za.offAtLocal w = 60 * p)
    (hb1 : ∀ t, zb.offAtUtc t = 60 * q) (hb2 : ∀ w, zb.offAtLocal w = 60 * q)
    (hvalid : getDayIndex day ≠ -1) (h0 : 0 ≤ hour) (h23 : hour ≤ 23) :
    convertTimeSlot db zB zA (convertTimeSlot db zA zB day hour none T).1
      (convertTimeSlot db zA zB day hour none T).2 none T = (day, hour) := by
  obtain ⟨i, hi0, hi6, hidx, hname⟩ := validDay day hvalid
  rw [convertTimeSlot_eval db zA zB za zb (60 * p) (60 * q) day i hour T hA hB
    ha2 hb1 hidx (by omega)]
  dsimp only
  rw [convertTimeSlot_eval db zB zA zb za (60 * q) (60 * p) _ _ _ T hB hA
    hb2 ha1 (getDayIndex_getDayName _) (by omega)]
  dsimp only
  rw [Prod.mk.injEq]
  refine ⟨?_, ?_⟩
  · rw [← hname]
    apply getDayName_congr
    simp only [jsGetDay]
    split_ifs <;> omega
  · simp only [jsGetDay]
    split_ifs <;> omega

/-- C7, witness: the amended round trip between UTC+01:00 and UTC-05:00
for (Wednesday, 9) with reference today 10. -/
theorem c7_roundtrip_witness :
    convertTimeSlot dbWholeHour "Zone/West5" "Zone/East1"
        (convertTimeSlot dbWholeHour "Zone/East1" "Zone/West5" "Wednesday" 9 none 10).1
        (convertTimeSlot dbWholeHour "Zone/East1" "Zone/West5" "Wednesday" 9 none 10).2
        none 10 = ("Wednesday", 9) :=
  c7_roundtrip_whole_hour_offsets dbWholeHour "Zone/East1" "Zone/West5"
    zoneEast1 zoneWest5 1 (-5) "Wednesday" 9 10 rfl rfl
    (fun _ => by norm_num [zoneEast1]) (fun _ => by norm_num [zoneEast1])
    (fun _ => by norm_num [zoneWest5]) (fun _ => by norm_num [zoneWest5])
    (by decide) (by decide) (by decide)

/-- C8: scenario B — the specific-date slot 2024-07-04 23:00 in
America/Los_Angeles (PDT, UTC-7), observed from Europe/London (BST,
UTC+1), converts to 2024-07-05 at hour 7 (a Friday). -/
theorem c8_scenario_b :
    convertTimeSlotSpecific dbScenarioB "America/Los_Angeles" "Europe/London"
      "2024-07-04" 23 =
      { date := "2024-07-05", hour := 7, dayName := "Friday" } := by
  decide

/-- C9: for every formatter output, `getLocalTimeParts` returns an hour
in [0, 23] (it is a natural number below 24), and a formatter that
emits 24 for midnight yields 0. -/
theorem c9_local_hour_in_range (fmt : Int → String → FmtParts) (date : Int)
    (timeZone : String) :
    (getLocalTimeParts fmt date timeZone).2 < 24 ∧
    ((fmt date timeZone).hourNum = some 24 →
      (getLocalTimeParts fmt date timeZone).2 = 0) := by
  constructor
  · exact Nat.mod_lt _ (by norm_num)
  · intro h
    simp [getLocalTimeParts, h]

/-- C10: when the JSON codec round-trips the list (and serializes it to
a nonempty string, as JSON.stringify of an array always does) and the
store operations succeed, `loadParticipants` after
`saveParticipants participants` returns `participants`; with nothing
stored, or with a stored string the parser rejects, it returns the
empty list. -/
theorem c10_storage_roundtrip (stringify : List Participant → String)
    (parse : String → Option (List Participant))
    (store : String → Option String) (participants : List Participant)
    (hround : parse (stringify participants) = some participants)
    (hne : stringify participants ≠ "") :
    loadParticipants parse (saveParticipants stringify store participants) =
      participants ∧
    (∀ st : String → Option String, st STORAGE_KEY = none →
      loadParticipants parse st = []) ∧
    (∀ (st : String → Option String) (s : String), st STORAGE_KEY = some s →
      parse s = none → loadParticipants parse st = []) := by
  refine ⟨?_, fun st h => ?_, fun st s h1 h2 => ?_⟩
  · simp [loadParticipants, saveParticipants, hne, hround]
  · simp [loadParticipants, h]
  · simp [loadParticipants, h1, h2]

/-- C10, witness: the round trip at the empty participant list with a
concrete codec and store. -/
theorem c10_storage_roundtrip_witness :
    loadParticipants parseEmpty (saveParticipants stringifyEmpty storeEmpty []) =
      [] :=
  (c10_storage_roundtrip stringifyEmpty parseEmpty storeEmpty []
    (by decide) (by decide)).1

end CourtScheduler
